import Mathlib

/-!
# Verification of the rgpot evaluation/cache/bridge core

A shallow embedding of the rgpot repository's evaluation-dispatch-and-cache
subsystem together with its remote-transport bridge, and proofs about it.

Modelling conventions:
* IEEE-754 doubles are represented by their 64-bit bit patterns, as natural
  numbers below `2^64`.  All operations the embedded code performs on doubles
  (memcpy-style byte copies, hashing of raw bytes, equality of bit patterns)
  are exactly mirrored by operations on the patterns; no floating-point
  arithmetic appears in the embedded control paths, except in the
  Lennard-Jones kernel, which is embedded generically over an abstract
  arithmetic structure.
* C `int` values (atomic numbers) are represented by their 32-bit patterns.
* `size_t` arithmetic (the XOR hash accumulator) is on 64-bit values.
* The external XXH3 hash, the RocksDB store, the Cap'n Proto transport and
  the Fortran EAM kernel are parameters of the embedding: the code under
  verification only moves their outputs around.
-/

namespace Rgpot

/-! ## Little-endian byte serialization (memcpy model)

`std::memcpy` of a `k`-byte scalar writes its `k` bytes in memory order;
on the little-endian targets the code runs on this is the little-endian
byte decomposition of the bit pattern. -/

/-- The `k` little-endian bytes of the bit pattern `p`. -/
def leBytes : Nat → Nat → List Nat
  | 0, _ => []
  | k + 1, p => p % 256 :: leBytes k (p / 256)

/-- Read back a little-endian byte list as a bit pattern. -/
def leVal : List Nat → Nat
  | [] => 0
  | b :: bs => b + 256 * leVal bs

theorem leBytes_length (k p : Nat) : (leBytes k p).length = k := by
  induction k generalizing p with
  | zero => rfl
  | succ k ih => simp [leBytes, ih]

theorem leVal_leBytes (k p : Nat) (h : p < 256 ^ k) : leVal (leBytes k p) = p := by
  induction k generalizing p with
  | zero => simp [leBytes, leVal]; omega
  | succ k ih =>
      simp only [leBytes, leVal]
      rw [ih (p / 256) (by
        have : 256 ^ (k + 1) = 256 ^ k * 256 := by ring
        omega)]
      omega

/-- Raw bytes of a list of doubles (8 bytes each, in array order). -/
def doubleBytes (xs : List Nat) : List Nat := xs.flatMap (leBytes 8)

/-- Raw bytes of a list of C `int`s (4 bytes each, in array order). -/
def intBytes (xs : List Nat) : List Nat := xs.flatMap (leBytes 4)

/-! ## C bridge (`src/CppCore/rgpot/rpc/pot_bridge.cc`)

The bridge wraps a Cap'n Proto `EzRpcClient`.  The transport is external, so
one round trip is represented by an `RpcOutcome`: either the server's decoded
response (energy and force list, as bit patterns) or an exception escaping
the RPC layer. -/

/-- Outcome of the RPC round trip inside `pot_calculate`'s `try` block:
a decoded response, a `std::exception` with its `what()` message, or a
non-standard exception. -/
inductive RpcOutcome where
  | ok (energy : Nat) (forces : List Nat)
  | exn (msg : String)
  | unknownExn
deriving DecidableEq, Repr

/-- The `PotClient` handle state visible to the embedding: the address string
built by `pot_client_init` and the `last_error` buffer.  The live RPC objects
(`rpc_client`, `capability`, `wait_scope`) are owned external resources with
no further observable state here. -/
structure PotClient where
  address : String
  last_error : String
deriving DecidableEq, Repr

/-- `pot_client_init`: returns null for a null host; otherwise builds
`host:port` and constructs the client.  `EzRpcClient` construction is
modelled from the spec: the connect is lazy, so construction does not
consult reachability and succeeds for a well-formed address. -/
def pot_client_init (host : Option String) (port : Int) : Option PotClient :=
  match host with
  | none => none
  | some h => some { address := h ++ ":" ++ toString port, last_error := "" }

/-- Result of one `pot_calculate` call: the returned status and the state of
the client and of the caller's two output buffers after the call. -/
structure CalcResult where
  status : Int
  client : Option PotClient
  out_energy : Nat
  out_forces : List Nat
deriving DecidableEq, Repr

/-- `pot_calculate` (pot_bridge.cc:112-166).  `out_energy` / `out_forces`
hold the caller's buffer contents before the call; the result carries their
contents after it.  The successful copy loop overwrites the first
`natoms*3` entries of the force buffer. -/
def pot_calculate (client : Option PotClient) (natoms : Nat)
    (outcome : RpcOutcome) (out_energy : Nat) (out_forces : List Nat) :
    CalcResult :=
  match client with
  | none => ⟨-1, none, out_energy, out_forces⟩
  | some cl =>
    let cl := { cl with last_error := "" }
    match outcome with
    | .ok e forces =>
        -- `*out_energy = result.getEnergy();` happens before the size check
        let out_energy := e
        if forces.length ≠ natoms * 3 then
          ⟨-2, some { cl with
              last_error := "Server returned force array of incorrect size" },
            out_energy, out_forces⟩
        else
          ⟨0, some cl, out_energy, forces ++ out_forces.drop forces.length⟩
    | .exn msg => ⟨-1, some { cl with last_error := msg }, out_energy, out_forces⟩
    | .unknownExn =>
        ⟨-1, some { cl with last_error := "Unknown C++ exception" },
          out_energy, out_forces⟩

/-- `pot_get_last_error` (pot_bridge.cc:173-178). -/
def pot_get_last_error (client : Option PotClient) : String :=
  match client with
  | none => ""
  | some cl => if cl.last_error = "" then "" else cl.last_error

/-- `pot_client_free` (pot_bridge.cc:92-96): releases the handle. -/
def pot_client_free (_client : Option PotClient) : Option PotClient := none

/-! ## Native data types (`types/AtomMatrix.hpp`, `ForceStructs.hpp`,
`pot_types.hpp`) -/

/-- `rgpot::types::AtomMatrix`: a row-major matrix of doubles, stored here as
bit patterns in a flat list. -/
structure AtomMatrix where
  rows : Nat
  cols : Nat
  data : List Nat
deriving DecidableEq, Repr

namespace AtomMatrix

/-- `AtomMatrix::Zero(rows, cols)`.  The pattern of `0.0` is `0`. -/
def zero (rows cols : Nat) : AtomMatrix :=
  ⟨rows, cols, List.replicate (rows * cols) 0⟩

/-- `AtomMatrix::size()`. -/
def size (m : AtomMatrix) : Nat := m.rows * m.cols

end AtomMatrix

/-- `rgpot::PotType` (pot_types.hpp). -/
inductive PotType where
  | UNKNOWN
  | CuH2
  | LJ
deriving DecidableEq, Repr

/-- The enum value, as produced by `static_cast<size_t>(m_type)`. -/
def PotType.tag : PotType → Nat
  | .UNKNOWN => 0
  | .CuH2 => 1
  | .LJ => 2

/-- `rgpot::ForceInput` (ForceStructs.hpp), generic over the scalar carrier:
bit patterns (`Nat`) in the dispatcher, an abstract arithmetic type in the
Lennard-Jones kernel.  `atmnrs` are always `int` bit patterns. -/
structure ForceInput (R : Type) where
  nAtoms : Nat
  pos : List R
  atmnrs : List Nat
  box : List R
deriving DecidableEq, Repr

/-! ## PotentialCache (`PotentialCache.hpp/.cc`)

RocksDB itself is external; the portion of its state this code can observe
is a key→bytes map, modelled as an association list with newest binding
first (`Put` overwrites, `Get` finds the current binding). -/

/-- The observable content of a RocksDB database: newest-first bindings of
string keys to byte strings. -/
def Store := List (String × List Nat)
deriving DecidableEq, Repr

/-- `rocksdb::DB::Get`. -/
def Store.get (s : Store) (k : String) : Option (List Nat) :=
  match s with
  | [] => none
  | (k', v) :: rest => if k' = k then some v else Store.get rest k

/-- `rocksdb::DB::Put`. -/
def Store.put (s : Store) (k : String) (v : List Nat) : Store := (k, v) :: s

/-- `rgpot::cache::KeyHash` (PotentialCache.hpp:24-33). -/
structure KeyHash where
  hash : Nat
  key : String
deriving DecidableEq, Repr

/-- The `KeyHash(size_t)` constructor: `key = std::to_string(hash)`. -/
def KeyHash.ofHash (h : Nat) : KeyHash := ⟨h, toString h⟩

/-- `rgpot::cache::PotentialCache`: a possibly-null RocksDB pointer plus the
ownership flag.  `db = none` is the inert state. -/
structure PotentialCache where
  db : Option Store
  own_db : Bool
deriving DecidableEq, Repr

namespace PotentialCache

/-- The path constructor (PotentialCache.cc:27-39).  The `rocksdb::DB::Open`
call is external; its outcome is the parameter: `none` when the open failed
(the constructor then logs to stderr and leaves `db_` null), `some s` when it
succeeded on a database currently holding `s`.  The constructor itself never
throws: it is total in the outcome. -/
def openOutcome (openResult : Option Store) : PotentialCache :=
  match openResult with
  | none => { db := none, own_db := false }
  | some s => { db := some s, own_db := true }

/-- The default constructor (`PotentialCache() = default`): null database
pointer, not owned. -/
def default : PotentialCache := { db := none, own_db := false }

/-- `PotentialCache::set_db` (PotentialCache.cc:63-68). -/
def set_db (_c : PotentialCache) (db : Option Store) : PotentialCache :=
  { db := db, own_db := false }

/-- The serialized record buffer built by `add_serialized`
(PotentialCache.cc:97-105): `[energy bytes][force bytes]`. -/
def serializeRecord (energy : Nat) (forcesData : List Nat) : List Nat :=
  leBytes 8 energy ++ doubleBytes forcesData

/-- `PotentialCache::add_serialized` (PotentialCache.cc:93-109): a no-op on a
null database, otherwise `Put` of the serialized record under `kv.key`. -/
def add_serialized (c : PotentialCache) (kv : KeyHash) (energy : Nat)
    (forces : AtomMatrix) : PotentialCache :=
  match c.db with
  | none => c
  | some s =>
      { c with db := some (s.put kv.key (serializeRecord energy forces.data)) }

/-- `PotentialCache::find` (PotentialCache.cc:118-127): `none` on a null
database or an absent key. -/
def find (c : PotentialCache) (kv : KeyHash) : Option (List Nat) :=
  match c.db with
  | none => none
  | some s => s.get kv.key

/-- `PotentialCache::deserialize_hit` (PotentialCache.cc:78-83): memcpy the
first 8 bytes into the energy and the next `forces.size()` doubles into the
force matrix.  Returns the new energy and force matrix. -/
def deserialize_hit (hit : List Nat) (forces : AtomMatrix) :
    Nat × AtomMatrix :=
  let energy := leVal (hit.take 8)
  let body := hit.drop 8
  let newData :=
    (List.range forces.size).map (fun i => leVal ((body.drop (8 * i)).take 8))
  (energy, { forces with data := newData })

end PotentialCache

/-! ## Dispatcher (`Potential.hpp`, `POT_HAS_CACHE` build)

`Potential<Derived>::operator()` orchestrates hashing, cache lookup/update
and the `forceImpl` call.  The XXH3 hash of a byte string is external
(`xxh3`, a parameter, returning a 64-bit value); the derived class's
`forceImpl` is a parameter taking the `ForceInput` and the zero-initialized
force buffer and returning the final energy and buffer contents, exactly as
the C++ virtual call writes through `fo.energy` and `fo.F`. -/

/-- The key computation (Potential.hpp:144-151): a `size_t` accumulator
starting at zero, XOR-ed with the XXH3 hashes of the raw bytes of the
positions (`nAtoms*3` doubles), the species (`nAtoms` ints), the box
(9 doubles) and the `size_t` backend tag, in that order. -/
def computeHash (xxh3 : List Nat → Nat) (fi : ForceInput Nat)
    (ptype : PotType) : Nat :=
  let h0 : Nat := 0
  let h1 := h0 ^^^ xxh3 (doubleBytes (fi.pos.take (fi.nAtoms * 3)))
  let h2 := h1 ^^^ xxh3 (intBytes (fi.atmnrs.take fi.nAtoms))
  let h3 := h2 ^^^ xxh3 (doubleBytes (fi.box.take 9))
  h3 ^^^ xxh3 (leBytes 8 ptype.tag)

/-- A backend invocation: from the input and the zero-initialized force
buffer to the final `(fo.energy, fo.F)` contents. -/
def ForceFn := ForceInput Nat → List Nat → Nat × List Nat

/-- Result of one `Potential::operator()` call: the returned
`(energy, forces)` pair, the cache object's state after the call, and the
registry's `forceCalls` counter after the call. -/
structure EvalResult where
  energy : Nat
  forces : AtomMatrix
  cache : Option PotentialCache
  forceCalls : Nat
deriving DecidableEq, Repr

/-- The `ForceInput` view the dispatcher builds over its arguments
(Potential.hpp:129-139): flat positions, species, row-major flattened box. -/
def Potential.evalInput (positions : AtomMatrix) (atmtypes : List Nat)
    (box : List (List Nat)) : ForceInput Nat :=
  { nAtoms := positions.rows, pos := positions.data, atmnrs := atmtypes,
    box := box.flatten }

/-- The cache key the dispatcher computes for its arguments
(Potential.hpp:144-151). -/
def Potential.evalKey (xxh3 : List Nat → Nat) (ptype : PotType)
    (positions : AtomMatrix) (atmtypes : List Nat)
    (box : List (List Nat)) : KeyHash :=
  KeyHash.ofHash (computeHash xxh3 (Potential.evalInput positions atmtypes box)
    ptype)

/-- `Potential<Derived>::operator()` (Potential.hpp:121-177), cache-enabled
build.  `cache` is the `_cache` pointer (`none` when no cache is attached)
and `forceCalls` the registry counter before the call. -/
def Potential.eval (xxh3 : List Nat → Nat) (forceImpl : ForceFn)
    (ptype : PotType) (positions : AtomMatrix) (atmtypes : List Nat)
    (box : List (List Nat)) (cache : Option PotentialCache)
    (forceCalls : Nat) : EvalResult :=
  let nAtoms := positions.rows
  let forces := AtomMatrix.zero nAtoms 3
  let fi := Potential.evalInput positions atmtypes box
  let key := Potential.evalKey xxh3 ptype positions atmtypes box
  match cache with
  | some c =>
      match c.find key with
      | some hit =>
          let (energy, forces) := PotentialCache.deserialize_hit hit forces
          { energy := energy, forces := forces, cache := some c,
            forceCalls := forceCalls }
      | none =>
          let (energy, fdata) := forceImpl fi forces.data
          let forces := { forces with data := fdata }
          let c := c.add_serialized key energy forces
          { energy := energy, forces := forces, cache := some c,
            forceCalls := forceCalls + 1 }
  | none =>
      let (energy, fdata) := forceImpl fi forces.data
      let forces := { forces with data := fdata }
      { energy := energy, forces := forces, cache := none,
        forceCalls := forceCalls + 1 }

/-! ## Backends (`CuH2/CuH2Pot.cc`, `LennardJones/LJPot.cc`)

The backend kernels are embedded standalone, generic over an abstract scalar
type `R` for the doubles they merely move or combine: the control flow
(validation, throwing) never inspects a floating-point value in `CuH2Pot`,
and in `LJPot` it does so only through the abstract comparison.  A thrown
`std::runtime_error` is an `Except.error` carrying `what()`. -/

/-- The arithmetic a scalar type must provide for the Lennard-Jones kernel:
one operation per C expression form appearing in `LJPot::forceImpl`.
`half` is the literal `0.5`; `lt` is the `<` comparison; `powNum x e` is
`pow(x, (double)e)` for the literal exponent 6. -/
structure RealOps (R : Type) where
  zero : R
  one : R
  half : R
  add : R → R → R
  sub : R → R → R
  mul : R → R → R
  div : R → R → R
  neg : R → R
  sqrt : R → R
  powNum : R → Nat → R
  floor : R → R
  lt : R → R → Bool
  ofNat : Nat → R

/-- `CuH2Pot::forceImpl` (CuH2Pot.cc:31-59).  The multiset of the first
`nAtoms` species is inspected for Cu (29) and H (1); the Fortran EAM bridge
`c_force_eam` is the external parameter `eam`, taking `(nCu, nH)`, `ndim`,
the diagonal box and the positions and returning `(forces, energy)` contents.
-/
def CuH2Pot.forceImpl {R : Type} [Inhabited R]
    (eam : Nat × Nat → Nat → List R → List R → List R × R)
    (fi : ForceInput R) : Except String (R × List R) :=
  let N := fi.nAtoms
  let natmc := fi.atmnrs.take N
  let nCu := natmc.count 29
  let nH := natmc.count 1
  if nCu = 0 ∨ nH = 0 then
    .error
      "The system does not have Copper or Hydrogen, but the CuH2 potential was requested"
  else if nCu + nH ≠ N then
    .error
      "The system has other atom types, but the CuH2 potential was requested"
  else
    let box_eam := [fi.box.getD 0 default, fi.box.getD 4 default,
      fi.box.getD 8 default]
    let (forces, energy) := eam (nCu, nH) (3 * N) box_eam fi.pos
    .ok (energy, forces)

/-- `rgpot::LJPot`'s parameters (LJPot.hpp:33,43-47).  The constructor
initializes `u0`, `cuttOffR` and `psi` but leaves `cuttOffU` indeterminate,
so it is a free field here. -/
structure LJParams (R : Type) where
  u0 : R
  cuttOffR : R
  psi : R
  cuttOffU : R

/-- One inner-loop iteration of `LJPot::forceImpl` (LJPot.cc:57-90) for the
atom pair `(i, j)`: minimum-image displacement, distance, and — inside the
cutoff — the energy accumulation and the six force updates, in program
order. -/
def ljPairStep {R : Type} (ops : RealOps R) (ps : LJParams R)
    (pos box : List R) (st : R × List R) (ij : Nat × Nat) : R × List R :=
  let (i, j) := ij
  let (U, F) := st
  let z := ops.zero
  let dX0 := ops.sub (pos.getD (3 * i) z) (pos.getD (3 * j) z)
  let dY0 := ops.sub (pos.getD (3 * i + 1) z) (pos.getD (3 * j + 1) z)
  let dZ0 := ops.sub (pos.getD (3 * i + 2) z) (pos.getD (3 * j + 2) z)
  let mic := fun (d : R) (b : R) =>
    ops.sub d (ops.mul b (ops.floor (ops.add (ops.div d b) ops.half)))
  let dX := mic dX0 (box.getD 0 z)
  let dY := mic dY0 (box.getD 4 z)
  let dZ := mic dZ0 (box.getD 8 z)
  let diffR := ops.sqrt (ops.add (ops.add (ops.mul dX dX) (ops.mul dY dY))
    (ops.mul dZ dZ))
  if ops.lt diffR ps.cuttOffR then
    let a := ops.powNum (ops.div ps.psi diffR) 6
    let b := ops.mul (ops.mul (ops.ofNat 4) ps.u0) a
    let U := ops.sub (ops.add U (ops.mul b (ops.sub a ops.one))) ps.cuttOffU
    let dU := ops.mul (ops.div (ops.mul (ops.neg (ops.ofNat 6)) b) diffR)
      (ops.sub (ops.mul (ops.ofNat 2) a) ops.one)
    let F := F.set (3 * i) (ops.sub (F.getD (3 * i) z)
      (ops.div (ops.mul dU dX) diffR))
    let F := F.set (3 * i + 1) (ops.sub (F.getD (3 * i + 1) z)
      (ops.div (ops.mul dU dY) diffR))
    let F := F.set (3 * i + 2) (ops.sub (F.getD (3 * i + 2) z)
      (ops.div (ops.mul dU dZ) diffR))
    let F := F.set (3 * j) (ops.add (F.getD (3 * j) z)
      (ops.div (ops.mul dU dX) diffR))
    let F := F.set (3 * j + 1) (ops.add (F.getD (3 * j + 1) z)
      (ops.div (ops.mul dU dY) diffR))
    let F := F.set (3 * j + 2) (ops.add (F.getD (3 * j + 2) z)
      (ops.div (ops.mul dU dZ) diffR))
    (U, F)
  else
    (U, F)

/-- The ordered pair list traversed by the double loop
`for i in [0, N-1) for j in (i, N)`. -/
def ljPairs (N : Nat) : List (Nat × Nat) :=
  (List.range N).flatMap fun i =>
    (List.range (N - (i + 1))).map fun k => (i, i + 1 + k)

/-- `LJPot::forceImpl` (LJPot.cc:38-92): zero the energy and the first `3N`
force entries, run the pair loop, and return normally — the kernel performs
no validation of any kind and never throws. -/
def LJPot.forceImpl {R : Type} (ops : RealOps R) (ps : LJParams R)
    (fi : ForceInput R) (buffer : List R) : Except String (R × List R) :=
  let N := fi.nAtoms
  let U0 := ops.zero
  let F0 := (List.range (3 * N)).foldl (fun F k => F.set k ops.zero) buffer
  .ok ((ljPairs N).foldl (ljPairStep ops ps fi.pos fi.box) (U0, F0))

/-- A concrete scalar instantiation (exact rationals with stand-ins for the
irrational primitives) used to evaluate the kernels at concrete inputs. -/
def ratOps : RealOps ℚ :=
  { zero := 0, one := 1, half := 1 / 2,
    add := fun x y => x + y, sub := fun x y => x - y,
    mul := fun x y => x * y, div := fun x y => x / y,
    neg := fun x => -x, sqrt := fun x => x,
    powNum := fun x e => x ^ e, floor := fun x => Rat.floor x,
    lt := fun x y => decide (x < y), ofNat := fun n => (n : ℚ) }

/-! ## Server (`rpc/server.cpp`, `types/adapters/capnp/capnp_adapter.hpp`)

The wire request carries `pos`, `atmnrs` and `box` lists (the spec's wire
schema also declares a `natoms : int32` field; the schema file itself is not
part of the sources here, so that field is modelled from the spec).  The
wrapped potential is the parameter `potential`. -/

/-- The wire request.  `natoms` is modelled from the spec:
`request = \x7bnatoms: int32, pos: float64[], atmnrs: int32[], box:
float64[9]\x7d`; the server implementation never reads it. -/
structure WireRequest where
  natoms : Int
  pos : List Nat
  atmnrs : List Nat
  box : List Nat
deriving DecidableEq, Repr

/-- The wire response: `\x7benergy: float64, forces: float64[]\x7d`. -/
structure WireResponse where
  energy : Nat
  forces : List Nat
deriving DecidableEq, Repr

/-- `convertPositionsFromCapnp` (capnp_adapter.hpp): reads
`capnpPos[0 .. numAtoms*3)` into a `numAtoms × 3` matrix. -/
def convertPositionsFromCapnp (capnpPos : List Nat) (numAtoms : Nat) :
    AtomMatrix :=
  ⟨numAtoms, 3, (List.range (numAtoms * 3)).map fun i => capnpPos.getD i 0⟩

/-- `populateForcesToCapnp` (capnp_adapter.hpp): writes the
`forces.rows()*forces.cols()` matrix entries into the builder list. -/
def populateForcesToCapnp (capnpForces : List Nat) (forces : AtomMatrix) :
    List Nat :=
  (List.range (forces.rows * forces.cols)).foldl
    (fun l i => l.set i (forces.data.getD i 0)) capnpForces

/-- `GenericPotImpl::calculate` (server.cpp:57-84): derive
`numAtoms = pos.size() / 3`, `KJ_REQUIRE` the species-list length, convert,
evaluate the bound potential, and encode the response with a force list of
`numAtoms*3` elements.  A failed `KJ_REQUIRE` rejects the request. -/
def GenericPotImpl.calculate
    (potential : AtomMatrix → List Nat → List (List Nat) → Nat × AtomMatrix)
    (req : WireRequest) : Except String WireResponse :=
  let numAtoms := req.pos.length / 3
  if req.atmnrs.length ≠ numAtoms then
    .error "AtomNumbers size mismatch"
  else
    let nativePositions := convertPositionsFromCapnp req.pos numAtoms
    let nativeAtomTypes := req.atmnrs
    let nativeBox : List (List Nat) :=
      (List.range 3).map fun i =>
        [req.box.getD (i * 3) 0, req.box.getD (i * 3 + 1) 0,
          req.box.getD (i * 3 + 2) 0]
    let eres := potential nativePositions nativeAtomTypes nativeBox
    let forcesList := populateForcesToCapnp
      (List.replicate (numAtoms * 3) 0) eres.2
    .ok { energy := eres.1, forces := forcesList }

/-! ## Theorems -/

/-- C1 (counterexample): the claim says a size-mismatched response leaves
both output buffers unmodified, but `pot_calculate` writes
`*out_energy = result.getEnergy()` before the size check: at a concrete
mismatched response the status is the distinct code `-2`, yet the energy
buffer has changed from `7` to the server's `42`. -/
theorem pot_calculate_mismatch_writes_energy :
    (pot_calculate (pot_client_init (some "localhost") 12345) 1
        (.ok 42 []) 7 [1, 2, 3]).status = -2 ∧
    (pot_calculate (pot_client_init (some "localhost") 12345) 1
        (.ok 42 []) 7 [1, 2, 3]).out_energy = 42 ∧
    (pot_calculate (pot_client_init (some "localhost") 12345) 1
        (.ok 42 []) 7 [1, 2, 3]).out_energy ≠ 7 := by
  refine ⟨rfl, rfl, ?_⟩
  decide

/-- C1 (amended): on a non-null handle, a response whose force-array length
differs from `natoms*3` makes `pot_calculate` return the distinct non-zero
status `-2` and leaves `out_forces` unmodified, but `*out_energy` has
already been overwritten with the server's returned energy before the size
check runs. -/
theorem pot_calculate_size_mismatch (cl : PotClient) (natoms e oe : Nat)
    (forces ofs : List Nat) (h : forces.length ≠ natoms * 3) :
    (pot_calculate (some cl) natoms (.ok e forces) oe ofs).status = -2 ∧
    (pot_calculate (some cl) natoms (.ok e forces) oe ofs).status ≠ 0 ∧
    (pot_calculate (some cl) natoms (.ok e forces) oe ofs).out_forces = ofs ∧
    (pot_calculate (some cl) natoms (.ok e forces) oe ofs).out_energy = e := by
  simp [pot_calculate, h]

/-- C1 witness: the amended theorem applied at a concrete mismatched
response. -/
theorem pot_calculate_size_mismatch_witness :
    (pot_calculate (some ⟨"localhost:12345", ""⟩) 1 (.ok 42 []) 7
        [1, 2, 3]).status = -2 ∧
    (pot_calculate (some ⟨"localhost:12345", ""⟩) 1 (.ok 42 []) 7
        [1, 2, 3]).status ≠ 0 ∧
    (pot_calculate (some ⟨"localhost:12345", ""⟩) 1 (.ok 42 []) 7
        [1, 2, 3]).out_forces = [1, 2, 3] ∧
    (pot_calculate (some ⟨"localhost:12345", ""⟩) 1 (.ok 42 []) 7
        [1, 2, 3]).out_energy = 42 :=
  pot_calculate_size_mismatch ⟨"localhost:12345", ""⟩ 1 42 7 [] [1, 2, 3]
    (by decide)

/-- C4 (counterexample): the claim says the three failure kinds return
pairwise distinct codes, but a null handle and a transport failure both
return `-1` at concrete inputs. -/
theorem pot_calculate_status_collision :
    (pot_calculate none 1 (.ok 0 [0, 0, 0]) 0 [0, 0, 0]).status = -1 ∧
    (pot_calculate (some ⟨"h:1", ""⟩) 1 (.exn "connection refused") 0
        [0, 0, 0]).status = -1 := by
  exact ⟨rfl, rfl⟩

/-- C4 (amended): `pot_calculate` returns `0` on success and negative codes
on failure; the response-size-mismatch code `-2` is distinct from the other
two, but the null-handle and transport-failure kinds share the code `-1`. -/
theorem pot_calculate_status_codes (cl : PotClient) (natoms e oe : Nat)
    (msg : String) (forces ofs : List Nat) (outcome : RpcOutcome) :
    (pot_calculate none natoms outcome oe ofs).status = -1 ∧
    (pot_calculate (some cl) natoms (.exn msg) oe ofs).status = -1 ∧
    (pot_calculate (some cl) natoms .unknownExn oe ofs).status = -1 ∧
    (forces.length ≠ natoms * 3 →
      (pot_calculate (some cl) natoms (.ok e forces) oe ofs).status = -2) ∧
    (forces.length = natoms * 3 →
      (pot_calculate (some cl) natoms (.ok e forces) oe ofs).status = 0) ∧
    (-1 : Int) < 0 ∧ (-2 : Int) < 0 ∧ (-1 : Int) ≠ -2 := by
  refine ⟨rfl, rfl, rfl, ?_, ?_, by decide, by decide, by decide⟩
  · intro h; simp [pot_calculate, h]
  · intro h; simp [pot_calculate, h]

/-- C4 witness: the amended status-code theorem applied at concrete inputs,
with both implications discharged at matching concrete lengths. -/
theorem pot_calculate_status_codes_witness :
    (pot_calculate none 2 (.exn "x") 0 []).status = -1 ∧
    (pot_calculate (some ⟨"h:1", ""⟩) 2 (.exn "x") 0 []).status = -1 ∧
    (pot_calculate (some ⟨"h:1", ""⟩) 2 .unknownExn 0 []).status = -1 ∧
    (pot_calculate (some ⟨"h:1", ""⟩) 1 (.ok 5 [1, 2, 3]) 0
        [0, 0, 0]).status = 0 ∧
    (pot_calculate (some ⟨"h:1", ""⟩) 2 (.ok 5 [1, 2, 3]) 0
        [0, 0, 0]).status = -2 :=
  ⟨(pot_calculate_status_codes ⟨"h:1", ""⟩ 2 0 0 "x" [] [] (.exn "x")).1,
   (pot_calculate_status_codes ⟨"h:1", ""⟩ 2 0 0 "x" [] [] (.exn "x")).2.1,
   (pot_calculate_status_codes ⟨"h:1", ""⟩ 2 0 0 "x" [] [] (.exn "x")).2.2.1,
   (pot_calculate_status_codes ⟨"h:1", ""⟩ 1 5 0 "x" [1, 2, 3] [0, 0, 0]
      (.exn "x")).2.2.2.2.1 (by decide),
   (pot_calculate_status_codes ⟨"h:1", ""⟩ 2 5 0 "x" [1, 2, 3] [0, 0, 0]
      (.exn "x")).2.2.2.1 (by decide)⟩

/-- C8: `pot_client_init` is lazy — for every host string and port the
construction returns a non-null handle without consulting reachability
(the `EzRpcClient` lazy connect is modelled from the spec), and a transport
failure surfacing on the first `pot_calculate` yields a non-zero status with
the error string retrievable through `pot_get_last_error`. -/
theorem pot_client_init_lazy (h : String) (port : Int) (msg : String)
    (hmsg : msg ≠ "") (natoms oe : Nat) (ofs : List Nat) :
    (pot_client_init (some h) port).isSome = true ∧
    (pot_calculate (pot_client_init (some h) port) natoms (.exn msg) oe
        ofs).status ≠ 0 ∧
    pot_get_last_error (pot_calculate (pot_client_init (some h) port) natoms
        (.exn msg) oe ofs).client = msg := by
  refine ⟨rfl, by simp [pot_client_init, pot_calculate], ?_⟩
  simp [pot_client_init, pot_calculate, pot_get_last_error, hmsg]

/-- C8 witness: the lazy-construction theorem at a concrete host, port and
transport failure. -/
theorem pot_client_init_lazy_witness :
    (pot_client_init (some "localhost") 12345).isSome = true ∧
    (pot_calculate (pot_client_init (some "localhost") 12345) 2
        (.exn "kj::Exception: connect failed") 0 []).status ≠ 0 ∧
    pot_get_last_error (pot_calculate (pot_client_init (some "localhost")
        12345) 2 (.exn "kj::Exception: connect failed") 0 []).client =
      "kj::Exception: connect failed" :=
  pot_client_init_lazy "localhost" 12345 "kj::Exception: connect failed"
    (by decide) 2 0 []

/-- Reading back the `i`-th 8-byte block of a serialized double array
recovers the `i`-th pattern: the memcpy round trip over the whole force
block is lossless. -/
theorem pow256_eight : (256 : Nat) ^ 8 = 2 ^ 64 := by norm_num

/-- `doubleBytes` of a `k`-element double array occupies `8k` bytes. -/
theorem doubleBytes_length (F : List Nat) :
    (doubleBytes F).length = 8 * F.length := by
  induction F with
  | nil => rfl
  | cons x F ih =>
      simp only [doubleBytes, List.flatMap_cons, List.length_append,
        leBytes_length, List.length_cons] at *
      omega

theorem doubleBytes_decode (F : List Nat) (hF : ∀ x ∈ F, x < 2 ^ 64) :
    (List.range F.length).map
      (fun i => leVal (((doubleBytes F).drop (8 * i)).take 8)) = F := by
  induction F with
  | nil => rfl
  | cons x F ih =>
      have hx : x < 256 ^ 8 := pow256_eight ▸ hF x (by simp)
      have hlen : (leBytes 8 x).length = 8 := leBytes_length 8 x
      have hcons : doubleBytes (x :: F) = leBytes 8 x ++ doubleBytes F := rfl
      have h0 : leVal (((doubleBytes (x :: F)).drop (8 * 0)).take 8) = x := by
        rw [hcons, Nat.mul_zero, List.drop_zero, List.take_left' hlen]
        exact leVal_leBytes 8 x hx
      have hstep : ∀ i : Nat,
          leVal (((doubleBytes (x :: F)).drop (8 * (i + 1))).take 8) =
            leVal (((doubleBytes F).drop (8 * i)).take 8) := by
        intro i
        rw [hcons, show 8 * (i + 1) = (leBytes 8 x).length + 8 * i by
          rw [hlen]; ring, List.drop_append]
      rw [List.length_cons, List.range_succ_eq_map, List.map_cons,
        List.map_map]
      refine congrArg₂ List.cons h0 ?_
      have htail : (List.range F.length).map
          ((fun i => leVal (((doubleBytes (x :: F)).drop (8 * i)).take 8)) ∘
            Nat.succ) =
          (List.range F.length).map
            (fun i => leVal (((doubleBytes F).drop (8 * i)).take 8)) :=
        List.map_congr_left (fun i _ => by
          simpa [Function.comp, Nat.succ_eq_add_one] using hstep i)
      rw [htail, ih (fun y hy => hF y (by simp [hy]))]

/-- On a live store, `add_serialized` followed by `find` on the same key
returns the record just written. -/
theorem find_add_serialized_self (c : PotentialCache) (s : Store)
    (hdb : c.db = some s) (k : KeyHash) (e : Nat) (F : AtomMatrix) :
    (c.add_serialized k e F).find k =
      some (PotentialCache.serializeRecord e F.data) := by
  simp [PotentialCache.add_serialized, hdb, PotentialCache.find, Store.put,
    Store.get]

/-- `deserialize_hit` of a record built by `add_serialized`, into an output
matrix of the matching size, recovers the serialized energy and forces
bit-exactly. -/
theorem deserialize_hit_serializeRecord (e : Nat) (he : e < 2 ^ 64)
    (F : List Nat) (hF : ∀ x ∈ F, x < 2 ^ 64) (N : Nat)
    (hlen : F.length = 3 * N) :
    PotentialCache.deserialize_hit (PotentialCache.serializeRecord e F)
      (AtomMatrix.zero N 3) = (e, ⟨N, 3, F⟩) := by
  have hlen8 : (leBytes 8 e).length = 8 := leBytes_length 8 e
  simp only [PotentialCache.deserialize_hit, PotentialCache.serializeRecord]
  have htake : ((leBytes 8 e ++ doubleBytes F).take 8) = leBytes 8 e :=
    List.take_left' hlen8
  have hdrop : ((leBytes 8 e ++ doubleBytes F).drop 8) = doubleBytes F :=
    List.drop_left' hlen8
  have hsize : (AtomMatrix.zero N 3).size = F.length := by
    simp only [AtomMatrix.zero, AtomMatrix.size]
    omega
  rw [htake, hdrop, hsize, doubleBytes_decode F hF,
    leVal_leBytes 8 e (pow256_eight ▸ he)]
  rfl

/-- C5: a `PotentialCache` whose open failed (the constructor never throws;
it logs and leaves the database pointer null) and a default-constructed
store both behave as safe always-miss pass-throughs: every `find` is a miss
and every `add_serialized` is a no-op. -/
theorem potentialCache_inert (k : KeyHash) (e : Nat) (F : AtomMatrix) :
    (PotentialCache.openOutcome none).db = none ∧
    (PotentialCache.openOutcome none).find k = none ∧
    (PotentialCache.openOutcome none).add_serialized k e F =
      PotentialCache.openOutcome none ∧
    PotentialCache.default.find k = none ∧
    PotentialCache.default.add_serialized k e F = PotentialCache.default := by
  exact ⟨rfl, rfl, rfl, rfl, rfl⟩

/-- C6: on a live store, `add_serialized` writes a record of exactly
`sizeof(double) + 3N*sizeof(double)` bytes laid out as
`[energy (8 bytes)][forces (3N × 8 bytes)]` with no header, the record is
found again under the same key, and `deserialize_hit` into a matching-size
`N × 3` output matrix recovers the energy and every force bit-exactly. -/
theorem cache_record_roundtrip (s : Store) (c : PotentialCache)
    (hdb : c.db = some s) (k : KeyHash) (e : Nat) (he : e < 2 ^ 64) (N : Nat)
    (F : List Nat) (hlen : F.length = 3 * N) (hF : ∀ x ∈ F, x < 2 ^ 64) :
    (PotentialCache.serializeRecord e F).length = 8 + 3 * N * 8 ∧
    PotentialCache.serializeRecord e F = leBytes 8 e ++ doubleBytes F ∧
    (c.add_serialized k e ⟨N, 3, F⟩).find k =
      some (PotentialCache.serializeRecord e F) ∧
    PotentialCache.deserialize_hit (PotentialCache.serializeRecord e F)
      (AtomMatrix.zero N 3) = (e, ⟨N, 3, F⟩) := by
  refine ⟨?_, rfl, ?_, deserialize_hit_serializeRecord e he F hF N hlen⟩
  · simp only [PotentialCache.serializeRecord, List.length_append,
      leBytes_length, doubleBytes_length, hlen]
    ring
  · exact find_add_serialized_self c s hdb k e ⟨N, 3, F⟩

/-- C6 witness: the record round trip at a concrete one-atom record. -/
theorem cache_record_roundtrip_witness :
    (PotentialCache.serializeRecord 3 [1, 2, 5]).length = 8 + 3 * 1 * 8 ∧
    PotentialCache.serializeRecord 3 [1, 2, 5] =
      leBytes 8 3 ++ doubleBytes [1, 2, 5] ∧
    (PotentialCache.add_serialized ⟨some [], true⟩ (KeyHash.ofHash 5) 3
      ⟨1, 3, [1, 2, 5]⟩).find (KeyHash.ofHash 5) =
      some (PotentialCache.serializeRecord 3 [1, 2, 5]) ∧
    PotentialCache.deserialize_hit (PotentialCache.serializeRecord 3 [1, 2, 5])
      (AtomMatrix.zero 1 3) = (3, ⟨1, 3, [1, 2, 5]⟩) :=
  cache_record_roundtrip [] ⟨some [], true⟩ rfl (KeyHash.ofHash 5) 3
    (by norm_num) 1 [1, 2, 5] (by decide) (by decide)

/-- C3: the cache key is the zero-started accumulator XOR-ed with the XXH3
hashes of the raw position bytes, species bytes, box bytes and backend tag,
in that order; consequently two inputs with identical raw bytes and
identical backend type produce identical hashes and identical stringified
keys. -/
theorem computeHash_structure (xxh3 : List Nat → Nat)
    (fi1 fi2 : ForceInput Nat) (pt1 pt2 : PotType)
    (hpos : doubleBytes (fi1.pos.take (fi1.nAtoms * 3)) =
      doubleBytes (fi2.pos.take (fi2.nAtoms * 3)))
    (hatm : intBytes (fi1.atmnrs.take fi1.nAtoms) =
      intBytes (fi2.atmnrs.take fi2.nAtoms))
    (hbox : doubleBytes (fi1.box.take 9) = doubleBytes (fi2.box.take 9))
    (hpt : pt1 = pt2) :
    computeHash xxh3 fi1 pt1 =
      (((0 ^^^ xxh3 (doubleBytes (fi1.pos.take (fi1.nAtoms * 3)))) ^^^
        xxh3 (intBytes (fi1.atmnrs.take fi1.nAtoms))) ^^^
        xxh3 (doubleBytes (fi1.box.take 9))) ^^^ xxh3 (leBytes 8 pt1.tag) ∧
    computeHash xxh3 fi1 pt1 = computeHash xxh3 fi2 pt2 ∧
    KeyHash.ofHash (computeHash xxh3 fi1 pt1) =
      KeyHash.ofHash (computeHash xxh3 fi2 pt2) := by
  subst hpt
  have h : computeHash xxh3 fi1 pt1 = computeHash xxh3 fi2 pt1 := by
    simp only [computeHash, hpos, hatm, hbox]
  exact ⟨rfl, h, congrArg KeyHash.ofHash h⟩

/-- C3 witness: two concretely different inputs (an extra trailing position,
species and box entry beyond what the hash reads) with identical hashed raw
bytes receive the same key. -/
theorem computeHash_structure_witness :
    computeHash leVal ⟨1, [5, 6, 7], [9], [1, 2, 3, 4, 5, 6, 7, 8, 9]⟩ .LJ =
      computeHash leVal
        ⟨1, [5, 6, 7, 11], [9, 12], [1, 2, 3, 4, 5, 6, 7, 8, 9, 13]⟩ .LJ :=
  (computeHash_structure leVal
    ⟨1, [5, 6, 7], [9], [1, 2, 3, 4, 5, 6, 7, 8, 9]⟩
    ⟨1, [5, 6, 7, 11], [9, 12], [1, 2, 3, 4, 5, 6, 7, 8, 9, 13]⟩ .LJ .LJ
    (by decide) (by decide) (by decide) rfl).2.1

/-- C9: without an attached cache, `Potential::operator()` is a pure
function of its input: two uncached evaluations at bit-identical input and
backend type return identical energy and forces regardless of the registry
counter's state, and each invocation increments the counter by exactly
one. -/
theorem uncached_eval_deterministic (xxh3 : List Nat → Nat) (f : ForceFn)
    (pt : PotType) (positions : AtomMatrix) (atmtypes : List Nat)
    (box : List (List Nat)) (n1 n2 : Nat) :
    (Potential.eval xxh3 f pt positions atmtypes box none n1).energy =
      (Potential.eval xxh3 f pt positions atmtypes box none n2).energy ∧
    (Potential.eval xxh3 f pt positions atmtypes box none n1).forces =
      (Potential.eval xxh3 f pt positions atmtypes box none n2).forces ∧
    (Potential.eval xxh3 f pt positions atmtypes box none n1).forceCalls =
      n1 + 1 := by
  rcases hf : f (Potential.evalInput positions atmtypes box)
      (AtomMatrix.zero positions.rows 3).data with ⟨e, fd⟩
  simp [Potential.eval, hf]

/-- On a cache hit, `Potential::operator()` returns the deserialized record
and leaves the cache and the registry counter untouched. -/
theorem eval_hit_eq (xxh3 : List Nat → Nat) (f : ForceFn) (pt : PotType)
    (positions : AtomMatrix) (atmtypes : List Nat) (box : List (List Nat))
    (c : PotentialCache) (n : Nat) (rec : List Nat)
    (hrec : c.find (Potential.evalKey xxh3 pt positions atmtypes box) =
      some rec) :
    Potential.eval xxh3 f pt positions atmtypes box (some c) n =
      { energy := (PotentialCache.deserialize_hit rec
          (AtomMatrix.zero positions.rows 3)).1,
        forces := (PotentialCache.deserialize_hit rec
          (AtomMatrix.zero positions.rows 3)).2,
        cache := some c, forceCalls := n } := by
  rcases hd : PotentialCache.deserialize_hit rec
    (AtomMatrix.zero positions.rows 3) with ⟨de, df⟩
  simp [Potential.eval, hrec, hd]

/-- On a cache miss, `Potential::operator()` invokes the backend, increments
the counter, and persists the result under the same key. -/
theorem eval_miss_eq (xxh3 : List Nat → Nat) (f : ForceFn) (pt : PotType)
    (positions : AtomMatrix) (atmtypes : List Nat) (box : List (List Nat))
    (c : PotentialCache) (n : Nat) (e : Nat) (Fd : List Nat)
    (hrec : c.find (Potential.evalKey xxh3 pt positions atmtypes box) = none)
    (hfi : f (Potential.evalInput positions atmtypes box)
      (AtomMatrix.zero positions.rows 3).data = (e, Fd)) :
    Potential.eval xxh3 f pt positions atmtypes box (some c) n =
      { energy := e,
        forces := { rows := positions.rows, cols := 3, data := Fd },
        cache := some (c.add_serialized
          (Potential.evalKey xxh3 pt positions atmtypes box) e
          { rows := positions.rows, cols := 3, data := Fd }),
        forceCalls := n + 1 } := by
  have hfi' : f (Potential.evalInput positions atmtypes box)
      (List.replicate (positions.rows * 3) 0) = (e, Fd) := by
    simpa [AtomMatrix.zero] using hfi
  simp [Potential.eval, hrec, hfi', AtomMatrix.zero]

/-- C2: with a cache attached, (i) whenever the store holds a record for the
input's key, `Potential::operator()` returns the energy and forces
deserialized from that record, leaves the cache state and the registry's
force-call counter unchanged, and does not invoke `forceImpl` (the result is
independent of the backend function); and (ii) on a live store the second of
two consecutive evaluations of an identical input returns the same
energy/forces pair as the first and leaves the counter unchanged. -/
theorem cached_eval_hit (xxh3 : List Nat → Nat) (f g : ForceFn)
    (pt : PotType) (positions : AtomMatrix) (atmtypes : List Nat)
    (box : List (List Nat)) (c : PotentialCache) (n : Nat) :
    (∀ rec,
      c.find (Potential.evalKey xxh3 pt positions atmtypes box) = some rec →
      Potential.eval xxh3 f pt positions atmtypes box (some c) n =
        { energy := (PotentialCache.deserialize_hit rec
            (AtomMatrix.zero positions.rows 3)).1,
          forces := (PotentialCache.deserialize_hit rec
            (AtomMatrix.zero positions.rows 3)).2,
          cache := some c, forceCalls := n } ∧
      Potential.eval xxh3 f pt positions atmtypes box (some c) n =
        Potential.eval xxh3 g pt positions atmtypes box (some c) n) ∧
    (∀ s, c.db = some s →
      (f (Potential.evalInput positions atmtypes box)
        (AtomMatrix.zero positions.rows 3).data).1 < 2 ^ 64 →
      (∀ x ∈ (f (Potential.evalInput positions atmtypes box)
        (AtomMatrix.zero positions.rows 3).data).2, x < 2 ^ 64) →
      (f (Potential.evalInput positions atmtypes box)
        (AtomMatrix.zero positions.rows 3).data).2.length =
        3 * positions.rows →
      (Potential.eval xxh3 f pt positions atmtypes box
          (Potential.eval xxh3 f pt positions atmtypes box
            (some c) n).cache
          (Potential.eval xxh3 f pt positions atmtypes box
            (some c) n).forceCalls).energy =
        (Potential.eval xxh3 f pt positions atmtypes box
          (some c) n).energy ∧
      (Potential.eval xxh3 f pt positions atmtypes box
          (Potential.eval xxh3 f pt positions atmtypes box
            (some c) n).cache
          (Potential.eval xxh3 f pt positions atmtypes box
            (some c) n).forceCalls).forces =
        (Potential.eval xxh3 f pt positions atmtypes box
          (some c) n).forces ∧
      (Potential.eval xxh3 f pt positions atmtypes box
          (Potential.eval xxh3 f pt positions atmtypes box
            (some c) n).cache
          (Potential.eval xxh3 f pt positions atmtypes box
            (some c) n).forceCalls).forceCalls =
        (Potential.eval xxh3 f pt positions atmtypes box
          (some c) n).forceCalls) := by
  constructor
  · intro rec hrec
    exact ⟨eval_hit_eq xxh3 f pt positions atmtypes box c n rec hrec,
      by rw [eval_hit_eq xxh3 f pt positions atmtypes box c n rec hrec,
        eval_hit_eq xxh3 g pt positions atmtypes box c n rec hrec]⟩
  · intro s hdb he hF hlen
    rcases hfi : f (Potential.evalInput positions atmtypes box)
        (AtomMatrix.zero positions.rows 3).data with ⟨e, Fd⟩
    rw [hfi] at he hF hlen
    dsimp only at he hF hlen
    cases hrec : c.find (Potential.evalKey xxh3 pt positions atmtypes box)
      with
    | some rec =>
        have h1 := eval_hit_eq xxh3 f pt positions atmtypes box c n rec hrec
        simp [h1]
    | none =>
        have h1 := eval_miss_eq xxh3 f pt positions atmtypes box c n e Fd
          hrec hfi
        have hfind2 := find_add_serialized_self c s hdb
          (Potential.evalKey xxh3 pt positions atmtypes box) e
          ⟨positions.rows, 3, Fd⟩
        have h2 := eval_hit_eq xxh3 f pt positions atmtypes box
          (c.add_serialized (Potential.evalKey xxh3 pt positions atmtypes box)
            e ⟨positions.rows, 3, Fd⟩) (n + 1) _ hfind2
        have hds := deserialize_hit_serializeRecord e he Fd hF positions.rows
          (by omega)
        simp [h1, h2, hds]

/-- C2 witness: part (i) at a concrete pre-populated store (the trivial hash
maps the input to key "0") and part (ii) starting from a concrete empty
live store. -/
theorem cached_eval_hit_witness :
    (Potential.eval (fun _ => 0)
      (fun _ b => (7, b.map (fun _ => 2))) .LJ ⟨1, 3, [1, 2, 3]⟩ [29]
      [[10, 0, 0], [0, 10, 0], [0, 0, 10]]
      (some ⟨some [("0", PotentialCache.serializeRecord 3 [1, 2, 5])], true⟩)
      5).forceCalls = 5 ∧
    (Potential.eval (fun _ => 0) (fun _ b => (7, b.map (fun _ => 2))) .LJ
        ⟨1, 3, [1, 2, 3]⟩ [29] [[10, 0, 0], [0, 10, 0], [0, 0, 10]]
        (Potential.eval (fun _ => 0) (fun _ b => (7, b.map (fun _ => 2))) .LJ
          ⟨1, 3, [1, 2, 3]⟩ [29] [[10, 0, 0], [0, 10, 0], [0, 0, 10]]
          (some ⟨some [], true⟩) 0).cache
        (Potential.eval (fun _ => 0) (fun _ b => (7, b.map (fun _ => 2))) .LJ
          ⟨1, 3, [1, 2, 3]⟩ [29] [[10, 0, 0], [0, 10, 0], [0, 0, 10]]
          (some ⟨some [], true⟩) 0).forceCalls).energy =
      (Potential.eval (fun _ => 0) (fun _ b => (7, b.map (fun _ => 2))) .LJ
        ⟨1, 3, [1, 2, 3]⟩ [29] [[10, 0, 0], [0, 10, 0], [0, 0, 10]]
        (some ⟨some [], true⟩) 0).energy :=
  ⟨by
    rw [(cached_eval_hit (fun _ => 0) (fun _ b => (7, b.map (fun _ => 2)))
      (fun _ b => (0, b)) .LJ ⟨1, 3, [1, 2, 3]⟩ [29]
      [[10, 0, 0], [0, 10, 0], [0, 0, 10]]
      ⟨some [("0", PotentialCache.serializeRecord 3 [1, 2, 5])], true⟩ 5).1
      (PotentialCache.serializeRecord 3 [1, 2, 5]) (by decide)
      |>.1],
   ((cached_eval_hit (fun _ => 0) (fun _ b => (7, b.map (fun _ => 2)))
      (fun _ b => (0, b)) .LJ ⟨1, 3, [1, 2, 3]⟩ [29]
      [[10, 0, 0], [0, 10, 0], [0, 0, 10]] ⟨some [], true⟩ 0).2 [] rfl
      (by decide) (by decide) (by decide)).1⟩

/-- C7 (counterexample): the claim says a zero-atom input causes a
synchronously surfaced error for each of `CuH2Pot` and `LJPot`, but
`LJPot::forceImpl` performs no validation at all: at zero atoms it returns
normally with energy `0` and an untouched empty force buffer instead of
erroring. -/
theorem ljpot_zero_atoms_silently_computes :
    LJPot.forceImpl ratOps ⟨1, 15, 1, 0⟩
      ⟨0, [], [], [10, 0, 0, 0, 10, 0, 0, 0, 10]⟩ [] =
      Except.ok (0, []) := by
  rfl

/-- C7 (amended): `CuH2Pot::forceImpl` validates its species preconditions —
a zero-atom input or an input missing Cu or H raises the descriptive
missing-species error, and an input whose species are not all Cu/H raises
the other-atom-types error — but `LJPot::forceImpl` performs no validation
and returns normally on every input (zero atoms and unsupported species
included). -/
theorem backend_precondition_validation {R : Type} [Inhabited R]
    (eam : Nat × Nat → Nat → List R → List R → List R × R)
    (fi : ForceInput R) (ops : RealOps R) (ps : LJParams R)
    (fi2 : ForceInput R) (buffer : List R) :
    ((fi.atmnrs.take fi.nAtoms).count 29 = 0 ∨
      (fi.atmnrs.take fi.nAtoms).count 1 = 0 →
      CuH2Pot.forceImpl eam fi = .error
        "The system does not have Copper or Hydrogen, but the CuH2 potential was requested") ∧
    (fi.nAtoms = 0 →
      CuH2Pot.forceImpl eam fi = .error
        "The system does not have Copper or Hydrogen, but the CuH2 potential was requested") ∧
    ((fi.atmnrs.take fi.nAtoms).count 29 ≠ 0 →
      (fi.atmnrs.take fi.nAtoms).count 1 ≠ 0 →
      (fi.atmnrs.take fi.nAtoms).count 29 +
        (fi.atmnrs.take fi.nAtoms).count 1 ≠ fi.nAtoms →
      CuH2Pot.forceImpl eam fi = .error
        "The system has other atom types, but the CuH2 potential was requested") ∧
    (∃ res, LJPot.forceImpl ops ps fi2 buffer = Except.ok res) := by
  refine ⟨?_, ?_, ?_, ⟨_, rfl⟩⟩
  · intro h
    simp only [CuH2Pot.forceImpl]
    rw [if_pos h]
  · intro h
    simp [CuH2Pot.forceImpl, h]
  · intro h29 h1 hsum
    simp only [CuH2Pot.forceImpl]
    rw [if_neg (by push_neg; exact ⟨h29, h1⟩), if_pos hsum]

/-- C7 witness: the amended theorem at concrete inputs — a zero-atom
`CuH2Pot` call errors, while a two-atom pure-hydrogen `LJPot` call (species
`CuH2Pot` would reject) returns normally. -/
theorem backend_precondition_validation_witness :
    CuH2Pot.forceImpl (R := ℚ) (fun _ _ _ _ => ([], 0)) ⟨0, [], [], []⟩ =
      Except.error
        "The system does not have Copper or Hydrogen, but the CuH2 potential was requested" ∧
    (∃ res, LJPot.forceImpl ratOps ⟨1, 15, 1, 0⟩
      ⟨2, [0, 0, 0, 1, 0, 0], [1, 1], [10, 0, 0, 0, 10, 0, 0, 0, 10]⟩
      [0, 0, 0, 0, 0, 0] = Except.ok res) :=
  ⟨(backend_precondition_validation (R := ℚ) (fun _ _ _ _ => ([], 0))
      ⟨0, [], [], []⟩ ratOps ⟨1, 15, 1, 0⟩
      ⟨2, [0, 0, 0, 1, 0, 0], [1, 1], [10, 0, 0, 0, 10, 0, 0, 0, 10]⟩
      [0, 0, 0, 0, 0, 0]).2.1 rfl,
   (backend_precondition_validation (R := ℚ) (fun _ _ _ _ => ([], 0))
      ⟨0, [], [], []⟩ ratOps ⟨1, 15, 1, 0⟩
      ⟨2, [0, 0, 0, 1, 0, 0], [1, 1], [10, 0, 0, 0, 10, 0, 0, 0, 10]⟩
      [0, 0, 0, 0, 0, 0]).2.2.2⟩

/-- Overwriting entries in place never changes a list's length. -/
theorem foldl_set_length {α : Type} (xs : List Nat) (g : Nat → α)
    (l : List α) :
    (xs.foldl (fun acc i => acc.set i (g i)) l).length = l.length := by
  induction xs generalizing l with
  | nil => rfl
  | cons x xs ih => simp [List.foldl_cons, ih, List.length_set]

/-- C10: the server derives `numAtoms = pos.length / 3` by integer division:
the `natoms` wire field is ignored (responses are independent of it), any
remainder in the positions length is silently dropped (the request behaves
exactly like its truncation to `3*(pos.length/3)` positions), a species
list whose length differs from `numAtoms` is rejected, and every successful
response carries exactly `numAtoms*3` forces. -/
theorem server_calculate_shape
    (potential : AtomMatrix → List Nat → List (List Nat) → Nat × AtomMatrix)
    (req : WireRequest) (x : Int) :
    (GenericPotImpl.calculate potential { req with natoms := x } =
      GenericPotImpl.calculate potential req) ∧
    (req.atmnrs.length ≠ req.pos.length / 3 →
      GenericPotImpl.calculate potential req =
        .error "AtomNumbers size mismatch") ∧
    (req.atmnrs.length = req.pos.length / 3 →
      ∃ resp, GenericPotImpl.calculate potential req = .ok resp ∧
        resp.forces.length = (req.pos.length / 3) * 3) ∧
    (GenericPotImpl.calculate potential req =
      GenericPotImpl.calculate potential
        { req with pos := req.pos.take (3 * (req.pos.length / 3)) }) := by
  refine ⟨rfl, ?_, ?_, ?_⟩
  · intro h
    simp [GenericPotImpl.calculate, h]
  · intro h
    simp only [GenericPotImpl.calculate]
    rw [if_neg (fun hc => hc h)]
    refine ⟨_, rfl, ?_⟩
    simp only [populateForcesToCapnp, foldl_set_length, List.length_replicate]
  · have hle : 3 * (req.pos.length / 3) ≤ req.pos.length := by omega
    have hlen' : (req.pos.take (3 * (req.pos.length / 3))).length =
        3 * (req.pos.length / 3) := by
      rw [List.length_take]
      omega
    have hnum : (req.pos.take (3 * (req.pos.length / 3))).length / 3 =
        req.pos.length / 3 := by
      rw [hlen']
      omega
    have hpos : convertPositionsFromCapnp
        (req.pos.take (3 * (req.pos.length / 3))) (req.pos.length / 3) =
        convertPositionsFromCapnp req.pos (req.pos.length / 3) := by
      unfold convertPositionsFromCapnp
      refine congrArg (AtomMatrix.mk (req.pos.length / 3) 3) ?_
      refine List.map_congr_left (fun i hi => ?_)
      have hi' : i < 3 * (req.pos.length / 3) := by
        rw [List.mem_range] at hi
        omega
      simp [List.getD_eq_getElem?_getD, List.getElem?_take, hi']
    simp only [GenericPotImpl.calculate, hnum, hpos]

/-- C10 witness: at a concrete request with a length-4 position list (one
trailing coordinate dropped), one species entry, and a constant potential,
the call succeeds with a 3-element force list; with a natoms field changed
the response is unchanged; with a 2-element species list it is rejected. -/
theorem server_calculate_shape_witness :
    (GenericPotImpl.calculate (fun p _ _ => (0, AtomMatrix.zero p.rows 3))
      { natoms := 99, pos := [1, 2, 3, 4], atmnrs := [29], box := [] } =
      GenericPotImpl.calculate (fun p _ _ => (0, AtomMatrix.zero p.rows 3))
      { natoms := 7, pos := [1, 2, 3, 4], atmnrs := [29], box := [] }) ∧
    (∃ resp, GenericPotImpl.calculate
        (fun p _ _ => (0, AtomMatrix.zero p.rows 3))
        { natoms := 7, pos := [1, 2, 3, 4], atmnrs := [29], box := [] } =
        .ok resp ∧ resp.forces.length = 1 * 3) ∧
    (GenericPotImpl.calculate (fun p _ _ => (0, AtomMatrix.zero p.rows 3))
      { natoms := 7, pos := [1, 2, 3, 4], atmnrs := [29, 1], box := [] } =
      .error "AtomNumbers size mismatch") :=
  ⟨(server_calculate_shape (fun p _ _ => (0, AtomMatrix.zero p.rows 3))
      { natoms := 7, pos := [1, 2, 3, 4], atmnrs := [29], box := [] } 99).1,
   (server_calculate_shape (fun p _ _ => (0, AtomMatrix.zero p.rows 3))
      { natoms := 7, pos := [1, 2, 3, 4], atmnrs := [29], box := [] }
      99).2.2.1 (by decide),
   (server_calculate_shape (fun p _ _ => (0, AtomMatrix.zero p.rows 3))
      { natoms := 7, pos := [1, 2, 3, 4], atmnrs := [29, 1], box := [] }
      99).2.1 (by decide)⟩

end Rgpot
